import Mathlib

/-!
Verification development for the CalmEditor creative-editor application.

The definitions below are a shallow embedding of the state-management code of
the repository: the editor history stack and its operations from `src/App.tsx`
(`addImageToHistory`, `loadFileIntoEditor`, `handleUndo`, `handleRedo`,
`handleGenerate`, `handleImageClick`), the ad-variation orchestration
(`createVariation`, `processVariation`, `handleGenerateCustom`,
`handleGenerateMix` with the `AD_STRATEGIES` table), the aspect-ratio remap of
`generateResizedImage` from the Gemini service module, and the chat response
parsing pipeline of `src/components/ChatBot.tsx`.

JavaScript numbers that only ever hold exact values in the relevant code paths
are embedded as `Int`/`Nat`/`Rat`; fetched files are opaque and embedded as
strings; asynchronous request dispatch is made explicit by returning the
request (if any) next to the updated state, and request completions are
explicit events applied to the state.
-/

namespace CalmEditor

/-- Images (JS `File` objects / data URLs) are opaque payloads; we embed them as
strings. -/
abbrev Image := String

/-- Characters stripped by JavaScript `String.prototype.trim` (the white-space
and line-terminator code points that can appear in the text inputs of the app). -/
def isJsWhitespace (c : Char) : Bool :=
  c = ' ' || c = '\t' || c = '\n' || c = '\r' || c = '\x0b' || c = '\x0c'

/-- JavaScript `s.trim()`: remove leading and trailing whitespace. -/
def jsTrim (s : String) : String :=
  ⟨((s.data.dropWhile isJsWhitespace).reverse.dropWhile isJsWhitespace).reverse⟩

/-- JavaScript `l.slice(0, e)`: a negative end index counts from the end of the
array. -/
def jsSliceTo (l : List α) (e : Int) : List α :=
  l.take (if e < 0 then (e + l.length).toNat else e.toNat)

/-- JavaScript `Math.round`: round half toward positive infinity (exact on the
rational inputs produced here). -/
def jsRound (q : ℚ) : ℤ := ⌊q + 1 / 2⌋

/-- A completed crop selection (react-image-crop `PixelCrop`). -/
structure PixelCrop where
  x : ℚ
  y : ℚ
  width : ℚ
  height : ℚ
deriving DecidableEq

/-- The editor-side state variables of the `App` component (`src/App.tsx`):
the history stack with its cursor, the retouch prompt, the selected hotspots,
the error banner, the loading flag, the active tab and the crop selection. -/
structure EditorState where
  history : List Image
  historyIndex : Int
  prompt : String
  isLoading : Bool
  error : Option String
  editHotspot : Option (Int × Int)
  displayHotspot : Option (ℚ × ℚ)
  activeTab : String
  crop : Option PixelCrop
  completedCrop : Option PixelCrop
deriving DecidableEq

/-- `history[historyIndex] ?? null` (`src/App.tsx:131`); an out-of-range index
(including the initial `-1`) yields `null`. -/
def currentImage (s : EditorState) : Option Image :=
  if s.historyIndex < 0 then none else s.history.get? s.historyIndex.toNat

/-- `canUndo` (`src/App.tsx:171`). -/
def canUndo (s : EditorState) : Bool := decide (0 < s.historyIndex)

/-- `canRedo` (`src/App.tsx:172`). -/
def canRedo (s : EditorState) : Bool :=
  decide (s.historyIndex < (s.history.length : Int) - 1)

/-- `addImageToHistory` (`src/App.tsx:174-182`): truncate the stack after the
cursor, append the new image, move the cursor to the new last index and clear
the crop selection. -/
def addImageToHistory (s : EditorState) (newImageFile : Image) : EditorState :=
  let newHistory := jsSliceTo s.history (s.historyIndex + 1) ++ [newImageFile]
  { s with
      history := newHistory
      historyIndex := (newHistory.length : Int) - 1
      crop := none
      completedCrop := none }

/-- `loadFileIntoEditor` (`src/App.tsx:185-194`): replace the history with the
single loaded file, reset the cursor to 0 and clear hotspot/crop/error state
(the prompt and loading flag are untouched). -/
def loadFileIntoEditor (s : EditorState) (file : Image) : EditorState :=
  { s with
      error := none
      history := [file]
      historyIndex := 0
      editHotspot := none
      displayHotspot := none
      activeTab := "retouch"
      crop := none
      completedCrop := none }

/-- `handleUndo` (`src/App.tsx:406-412`): silently does nothing at cursor 0. -/
def handleUndo (s : EditorState) : EditorState :=
  if canUndo s then
    { s with historyIndex := s.historyIndex - 1, editHotspot := none, displayHotspot := none }
  else s

/-- `handleRedo` (`src/App.tsx:414-420`): silently does nothing at the last
index. -/
def handleRedo (s : EditorState) : EditorState :=
  if canRedo s then
    { s with historyIndex := s.historyIndex + 1, editHotspot := none, displayHotspot := none }
  else s

/-- The history-affecting user actions that can follow a load: a successful
edit commit, undo, and redo. -/
inductive HistOp where
  | commit (img : Image)
  | undo
  | redo
deriving DecidableEq

/-- Apply one history operation. -/
def applyHistOp (s : EditorState) : HistOp → EditorState
  | .commit img => addImageToHistory s img
  | .undo => handleUndo s
  | .redo => handleRedo s

/-- Apply a sequence of history operations from left to right. -/
def applyHistOps (s : EditorState) (ops : List HistOp) : EditorState :=
  ops.foldl applyHistOp s

/-- The history invariant established by a load: the cursor stays inside
`[0, length-1]` and the element at index 0 is still the loaded image. -/
def HistInv (img : Image) (s : EditorState) : Prop :=
  0 ≤ s.historyIndex ∧ s.historyIndex ≤ (s.history.length : Int) - 1 ∧
    s.history.head? = some img

/-! ### Ad-variation orchestration (`src/App.tsx:93-265`) -/

/-- The `VariationResult` record (`src/App.tsx:93-100`). -/
structure VariationResult where
  id : String
  label : String
  prompt : String
  url : Option String
  loading : Bool
  error : Option String
deriving DecidableEq

/-- `createVariation` (`src/App.tsx:214-221`); the `crypto.randomUUID()` call
is embedded by passing the freshly drawn identifier in. -/
def createVariation (id label prompt : String) : VariationResult :=
  { id := id, label := label, prompt := prompt
    url := none, loading := true, error := none }

/-- Outcome of an ad-variation generation request: `generateAdVariation`
resolved with a data URL, or rejected with an error message. -/
inductive Completion where
  | ok (url : String)
  | err (msg : String)
deriving DecidableEq

/-- How one completed request rewrites its own record
(`src/App.tsx:227` and `:229`): a wholesale record replacement that sets
`url`/`error` and clears `loading` (the `e.message` fallback replaces an empty
message by the constant `Error`). -/
def settleOne (c : Completion) (v : VariationResult) : VariationResult :=
  match c with
  | .ok url => { v with url := some url, loading := false }
  | .err m => { v with error := some (if m = "" then "Error" else m), loading := false }

/-- The `setVariations(prev => prev.map(...))` updates inside
`processVariation` (`src/App.tsx:227-229`): rewrite the record whose `id`
matches, leave every other record as is. -/
def applyCompletion (vid : String) (c : Completion)
    (vars : List VariationResult) : List VariationResult :=
  vars.map fun v => if v.id = vid then settleOne c v else v

/-- Apply a sequence of request completions in arrival order. -/
def runCompletions (vars : List VariationResult)
    (l : List (String × Completion)) : List VariationResult :=
  l.foldl (fun acc p => applyCompletion p.1 p.2 acc) vars

/-- A dispatched `generateAdVariation` call: the base image and instruction
sent upstream, and the identifier of the record the completion will target. -/
structure AdRequest where
  baseImage : Image
  instruction : String
  targetId : String
deriving DecidableEq

/-- The synchronous part of `processVariation` (`src/App.tsx:223-231`): with
no base image it returns before dispatching anything and before touching any
state; otherwise it dispatches `generateAdVariation(adBaseImage,
variation.prompt)` whose completion will later be applied with
`applyCompletion variation.id`. -/
def processVariation (adBaseImage : Option Image) (variation : VariationResult)
    (vars : List VariationResult) : List VariationResult × Option AdRequest :=
  match adBaseImage with
  | none => (vars, none)
  | some img => (vars, some ⟨img, variation.prompt, variation.id⟩)

/-- `handleGenerateCustom` (`src/App.tsx:233-239`): an empty (whitespace-only)
prompt is a no-op; otherwise a new in-flight record is prepended and
`processVariation` runs on it. -/
def handleGenerateCustom (adBaseImage : Option Image) (customAdPrompt : String)
    (newId : String) (prev : List VariationResult) :
    List VariationResult × Option AdRequest :=
  if jsTrim customAdPrompt = "" then (prev, none)
  else
    let newVariation := createVariation newId "Personalizado" customAdPrompt
    processVariation adBaseImage newVariation (newVariation :: prev)

/-- The `AD_STRATEGIES` table (`src/App.tsx:42-91`), embedded as an
association list preserving key order and every instruction string. -/
def AD_STRATEGIES : List (String × List String) :=
  [ ("Texto",
      [ "Add a short, punchy headline in English (max 4 words) at the top like \x27BEST SELLER\x27 or \x27NEW ARRIVAL\x27.",
        "Add text overlaid that emphasizes a benefit (e.g., \x27Fast Results\x27 or \x27High Quality\x27).",
        "Place a bold promotional text at the bottom saying \x27Shop Now\x27.",
        "Remove any existing text and keep the product clean and minimalist." ]),
    ("Fondo",
      [ "Change the background to a solid dark color (like matte black or navy) to make the product pop.",
        "Change the background to a solid light pastel color for a soft look.",
        "Change the background to a vibrant brand color like bright yellow or red.",
        "Set the background to pure clean white, DTC style.",
        "Add a subtle texture to the background like concrete or marble." ]),
    ("CTA",
      [ "Add a visible \x27Shop Now\x27 button graphic in the bottom right corner.",
        "Add a textual Call to Action \x27Discover More\x27 in a stylish font.",
        "Add an \x27Offer Ends Soon\x27 element in the top corner." ]),
    ("Producto",
      [ "Zoom in slightly on the product to show more detail.",
        "Show the product in a lifestyle context (e.g., on a table, in a hand).",
        "Give the product a 3D mockup feel with dynamic lighting." ]),
    ("Composición",
      [ "Center the product perfectly with symmetrical spacing.",
        "Place the product to one side leaving negative space for text on the other.",
        "Add a thin elegant frame or border around the image." ]),
    ("Prueba Social",
      [ "Add a graphic overlay of 5 stars (⭐⭐⭐⭐⭐) to suggest high ratings.",
        "Add a small badge saying \x27Customer Favorite\x27.",
        "Add a short quote visual saying \x27Highly Recommended\x27." ]),
    ("Urgencia",
      [ "Add a \x27Limited Edition\x27 label.",
        "Add a \x27Flash Sale -20%\x27 badge.",
        "Add a \x27Today Only\x27 sticker graphic." ]),
    ("Color",
      [ "Increase the saturation and vibrance of the product colors.",
        "Change the color palette to be warm (golden hour tones).",
        "Change the color palette to be cool and sleek (blues and silvers)." ]),
    ("Simple",
      [ "Simple variation: Solid contrasting background color.",
        "Simple variation: Minimalist with no text or distractions.",
        "Simple variation: Add a simple border." ]) ]

/-- The record `handleGenerateMix` builds for position `k` of the shuffled
category list: `prompts[Math.floor(Math.random() * prompts.length)]` with the
`k`-th random draw, wrapped by `createVariation` with the `k`-th fresh id
(`src/App.tsx:257-261`). -/
def mkMixVariation (rand : Nat → ℚ) (ids : Nat → String)
    (k : Nat) (cat : String) : VariationResult :=
  let prompts := (AD_STRATEGIES.lookup cat).getD []
  let randomPrompt := prompts.getD (⌊rand k * prompts.length⌋).toNat ""
  createVariation (ids k) cat randomPrompt

/-- `handleGenerateMix` (`src/App.tsx:250-265`): a no-op without a base image;
otherwise take the first 5 categories of the randomly-shuffled key list
(`categories.sort(() => 0.5 - Math.random()).slice(0, 5)` — the sort outcome
is embedded as the permutation `perm` it produces), build one in-flight
variation per category and prepend them all to the existing list. -/
def handleGenerateMix (adBaseImage : Option Image) (perm : List String)
    (rand : Nat → ℚ) (ids : Nat → String)
    (prev : List VariationResult) : List VariationResult :=
  match adBaseImage with
  | none => prev
  | some _ =>
    let shuffledCats := perm.take 5
    let newVariations := shuffledCats.mapIdx fun k cat => mkMixVariation rand ids k cat
    newVariations ++ prev

/-! ### Localized edit: validation and dispatch (`src/App.tsx:284-316`) -/

/-- A dispatched `generateEditedImage` call: current image, instruction and
hotspot (`src/App.tsx:304`). -/
structure EditRequest where
  image : Image
  prompt : String
  hotspot : Int × Int
deriving DecidableEq

/-- The pre-await part of `handleGenerate` (`src/App.tsx:284-302`): the three
local validation checks, in source order, each of which sets an error message
and returns without dispatching; only when all pass does the state switch to
loading and the network request go out. The post-await continuation (history
commit on success) is `addImageToHistory` and is not needed here. -/
def handleGenerate (s : EditorState) : EditorState × Option EditRequest :=
  match currentImage s with
  | none => ({ s with error := some "No hay imagen cargada para editar." }, none)
  | some img =>
    if jsTrim s.prompt = "" then
      ({ s with error := some "Por favor ingresa una descripción para tu edición." }, none)
    else
      match s.editHotspot with
      | none =>
        ({ s with error := some "Por favor haz clic en la imagen para seleccionar un área a editar." }, none)
      | some hs =>
        ({ s with isLoading := true, error := none }, some ⟨img, s.prompt, hs⟩)

/-! ### Hotspot selection (`src/App.tsx:459-478`) -/

/-- `handleImageClick`: outside the retouch tab the click is ignored;
otherwise the display-coordinate click offset is scaled by
`naturalSize / clientSize` and rounded, giving the stored edit hotspot. -/
def handleImageClick (activeTab : String) (offsetX offsetY : ℚ)
    (naturalWidth naturalHeight clientWidth clientHeight : ℚ) :
    Option (Int × Int) :=
  if activeTab ≠ "retouch" then none
  else
    let scaleX := naturalWidth / clientWidth
    let scaleY := naturalHeight / clientHeight
    some (jsRound (offsetX * scaleX), jsRound (offsetY * scaleY))

/-! ### Magic resize dispatch (`src/unnamed/part_000:224-254`) -/

/-- What `generateResizedImage` sends upstream for a target ratio. -/
structure ResizeRequest where
  promptText : String
  aspectRatio : String
deriving DecidableEq

/-- The request built by `generateResizedImage`: the prompt quotes the
requested target ratio, while `config.imageConfig.aspectRatio` gets the value
remapped by the conditional that turns `4:5` into `3:4` and keeps every other
value. -/
def generateResizedImage ( targetRatio : String) : ResizeRequest :=
  { promptText :=
      "Resize this image to a " ++ targetRatio ++ " aspect ratio. \nIf the new ratio is wider or taller than the original, seamlessly outpaint and fill the empty space with matching background content. \nEnsure the main subject remains centered and unchanged. \nThe result must be high quality and photorealistic."
    aspectRatio := if targetRatio = "4:5" then "3:4" else targetRatio }

/-! ### Chat response parsing (`src/components/ChatBot.tsx:206-246`)

The webhook body is text; `response.json()` / `JSON.parse` are embedded by an
executable JSON reader covering the constructs chat payloads use (null,
booleans, integers, strings with the standard escapes, arrays, objects). -/

/-- JavaScript JSON values. -/
inductive Json where
  | null
  | bool (b : Bool)
  | num (n : Int)
  | str (s : String)
  | arr (elems : List Json)
  | obj (fields : List (String × Json))

/-- JSON insignificant whitespace. -/
def skipWs (l : List Char) : List Char :=
  l.dropWhile fun c => c = ' ' || c = '\t' || c = '\n' || c = '\r'

/-- Value of a JSON string escape character. -/
def escChar (c : Char) : Option Char :=
  if c = '"' then some '"'
  else if c = '\\' then some '\\'
  else if c = '/' then some '/'
  else if c = 'n' then some '\n'
  else if c = 't' then some '\t'
  else if c = 'r' then some '\r'
  else if c = 'b' then some '\x08'
  else if c = 'f' then some '\x0c'
  else none

/-- Read the characters of a JSON string after its opening quote, returning
the decoded characters and the input past the closing quote. -/
def parseStrChars : Nat → List Char → Option (List Char × List Char)
  | 0, _ => none
  | _, [] => none
  | fuel + 1, c :: rest =>
    if c = '"' then some ([], rest)
    else if c = '\\' then
      match rest with
      | [] => none
      | e :: rest2 =>
        match escChar e with
        | none => none
        | some ec =>
          match parseStrChars fuel rest2 with
          | none => none
          | some (cs, r) => some (ec :: cs, r)
    else
      match parseStrChars fuel rest with
      | none => none
      | some (cs, r) => some (c :: cs, r)

/-- Numeric value of a digit string. -/
def digitsToNat (ds : List Char) : Nat :=
  ds.foldl (fun acc c => acc * 10 + (c.toNat - Char.toNat '0')) 0

/-- Read a JSON integer (optional minus sign and digits). -/
def parseNum (input : List Char) : Option (Json × List Char) :=
  match input with
  | '-' :: rest =>
    let ds := rest.takeWhile Char.isDigit
    if ds = [] then none
    else some (.num (-(digitsToNat ds : Int)), rest.drop ds.length)
  | _ =>
    let ds := input.takeWhile Char.isDigit
    if ds = [] then none
    else some (.num (digitsToNat ds : Int), input.drop ds.length)

mutual

/-- Read one JSON value; the fuel bounds the remaining nesting plus element
count and is instantiated with the input length. -/
def parseVal : Nat → List Char → Option (Json × List Char)
  | 0, _ => none
  | fuel + 1, input =>
    match skipWs input with
    | 'n' :: 'u' :: 'l' :: 'l' :: r => some (.null, r)
    | 't' :: 'r' :: 'u' :: 'e' :: r => some (.bool true, r)
    | 'f' :: 'a' :: 'l' :: 's' :: 'e' :: r => some (.bool false, r)
    | c :: rest =>
      if c = '"' then
        match parseStrChars (rest.length + 1) rest with
        | none => none
        | some (cs, r) => some (.str (String.mk cs), r)
      else if c = '[' then
        match skipWs rest with
        | ']' :: r => some (.arr [], r)
        | rest2 =>
          match parseElems fuel rest2 with
          | none => none
          | some (vs, r) => some (.arr vs, r)
      else if c = '\x7b' then
        match skipWs rest with
        | '\x7d' :: r => some (.obj [], r)
        | rest2 =>
          match parseMembers fuel rest2 with
          | none => none
          | some (fs, r) => some (.obj fs, r)
      else parseNum (c :: rest)
    | [] => none

/-- Read the elements of a non-empty JSON array up to its closing bracket. -/
def parseElems : Nat → List Char → Option (List Json × List Char)
  | 0, _ => none
  | fuel + 1, input =>
    match parseVal fuel input with
    | none => none
    | some (v, r) =>
      match skipWs r with
      | ']' :: r2 => some ([v], r2)
      | ',' :: r2 =>
        match parseElems fuel r2 with
        | none => none
        | some (vs, r3) => some (v :: vs, r3)
      | _ => none

/-- Read the members of a non-empty JSON object up to its closing brace. -/
def parseMembers : Nat → List Char → Option (List (String × Json) × List Char)
  | 0, _ => none
  | fuel + 1, input =>
    match skipWs input with
    | c :: rest =>
      if c = '"' then
        match parseStrChars (rest.length + 1) rest with
        | none => none
        | some (cs, r) =>
          match skipWs r with
          | ':' :: r2 =>
            match parseVal fuel r2 with
            | none => none
            | some (v, r3) =>
              match skipWs r3 with
              | '\x7d' :: r4 => some ([(String.mk cs, v)], r4)
              | ',' :: r4 =>
                match parseMembers fuel r4 with
                | none => none
                | some (fs, r5) => some ((String.mk cs, v) :: fs, r5)
              | _ => none
          | _ => none
      else none
    | [] => none

end

/-- `JSON.parse`: read one value and require the rest of the input to be
whitespace. -/
def parseJson (s : String) : Option Json :=
  match parseVal (s.length + 8) s.data with
  | none => none
  | some (v, rest) => if skipWs rest = [] then some v else none

/-- Escape one character for a JSON string literal. -/
def quoteChar (c : Char) : String :=
  if c = '"' then "\\\"" else if c = '\\' then "\\\\" else String.singleton c

/-- Quote a string as a JSON string literal. -/
def quoteStr (s : String) : String :=
  "\"" ++ String.join (s.data.map quoteChar) ++ "\""

mutual

/-- `JSON.stringify` on the embedded values. -/
def stringify : Json → String
  | .null => "null"
  | .bool true => "true"
  | .bool false => "false"
  | .num n => toString n
  | .str s => quoteStr s
  | .arr xs => "[" ++ stringifyElems xs ++ "]"
  | .obj fs => "\x7b" ++ stringifyMembers fs ++ "\x7d"

/-- Comma-separated serialization of array elements. -/
def stringifyElems : List Json → String
  | [] => ""
  | [x] => stringify x
  | x :: xs => stringify x ++ "," ++ stringifyElems xs

/-- Comma-separated serialization of object members. -/
def stringifyMembers : List (String × Json) → String
  | [] => ""
  | [(k, v)] => quoteStr k ++ ":" ++ stringify v
  | (k, v) :: fs => quoteStr k ++ ":" ++ stringify v ++ "," ++ stringifyMembers fs

end

/-- JavaScript truthiness of a defined value. -/
def truthy : Json → Bool
  | .null => false
  | .bool b => b
  | .num n => decide (n ≠ 0)
  | .str s => decide (s ≠ "")
  | .arr _ => true
  | .obj _ => true

/-- JavaScript truthiness with `none` standing for `undefined`. -/
def truthyOpt : Option Json → Bool
  | none => false
  | some v => truthy v

/-- JavaScript property access `v[k]`: `undefined` unless `v` is an object
with the member (the last member wins, as in `JSON.parse`). -/
def jsGet (v : Json) (k : String) : Option Json :=
  match v with
  | .obj fs => fs.foldl (fun acc p => if p.1 = k then some p.2 else acc) none
  | _ => none

/-- JavaScript `a || b` on possibly-undefined values. -/
def jsOr (a b : Option Json) : Option Json :=
  if truthyOpt a then a else b

/-- `item.output || item.text || item.message || item.response`
(`src/components/ChatBot.tsx:217` and `:222`). -/
def extractField (v : Json) : Option Json :=
  jsOr (jsOr (jsOr (jsGet v "output") (jsGet v "text")) (jsGet v "message"))
    (jsGet v "response")

/-- Whether the response text starts with an opening bracket or brace (the
two `startsWith` tests guarding the cleanup pass). -/
def startsBracket (s : String) : Bool :=
  match s.data with
  | [] => false
  | c :: _ => c = '[' || c = '\x7b'

/-- The second-pass cleanup (`src/components/ChatBot.tsx:234-246`): a string
that looks like JSON is parsed again and replaced by `parsed[0]?.output` or
`parsed.output` when truthy; a failing parse is ignored and the text kept. -/
def cleanupBotText (t : Json) : Json :=
  match t with
  | .str s =>
    if startsBracket s then
      match parseJson s with
      | none => t
      | some parsed =>
        let a : Option Json :=
          match parsed with
          | .arr (first :: _) => jsGet first "output"
          | _ => none
        if truthyOpt a then a.getD t
        else
          let b := jsGet parsed "output"
          if truthyOpt b then b.getD t else t
    else t
  | _ => t

/-- The bot-response computation of `handleSendMessage`
(`src/components/ChatBot.tsx:206-246`) as a function of the HTTP outcome:
`ok` flag, status code, whether the `content-type` header contains
`application/json`, and the body text. A body that fails to parse under a
JSON content type makes `await response.json()` throw; the surrounding
`catch` then produces the generic connection-error message. -/
def computeBotResponse (responseOk : Bool) (status : Nat)
    (isJsonContentType : Bool) (body : String) : Json :=
  let t : Json :=
    if responseOk then
      if isJsonContentType then
        match parseJson body with
        | none => .str "Lo siento, hubo un problema al conectar con el servidor."
        | some data =>
          let extracted : Option Json :=
            match data with
            | .arr (first :: _) =>
              let e := extractField first
              if truthyOpt e then e
              else
                match first with
                | .str _ => some first
                | _ => e
            | .arr [] => extractField data
            | .obj _ => extractField data
            | _ => none
          let fallback : Json :=
            match data with
            | .str _ => data
            | _ => .str (stringify data)
          if truthyOpt extracted then extracted.getD fallback else fallback
      else .str body
    else .str ("Error de conexión: " ++ toString status)
  cleanupBotText t

/-! ## Theorems -/

/-- A sample populated editor state used to witness hypotheses. -/
def sampleState : EditorState :=
  { history := ["a", "b", "c"], historyIndex := 1, prompt := "hi"
    isLoading := false, error := none, editHotspot := some (3, 4)
    displayHotspot := none, activeTab := "retouch", crop := none, completedCrop := none }

theorem histInv_load (s : EditorState) (img : Image) :
    HistInv img (loadFileIntoEditor s img) := by
  simp [HistInv, loadFileIntoEditor]

theorem histInv_commit {img : Image} {s : EditorState} (h : HistInv img s)
    (img' : Image) : HistInv img (addImageToHistory s img') := by
  obtain ⟨h0, h1, h2⟩ := h
  cases hh : s.history with
  | nil => rw [hh] at h2; simp at h2
  | cons a t =>
    rw [hh] at h2
    simp only [List.head?_cons, Option.some.injEq] at h2
    subst h2
    have hnn : ¬ s.historyIndex + 1 < 0 := by omega
    have htn : (s.historyIndex + 1).toNat = s.historyIndex.toNat + 1 := by omega
    constructor
    · simp [addImageToHistory, jsSliceTo]
      omega
    constructor
    · simp [addImageToHistory, jsSliceTo]
    · simp only [addImageToHistory, jsSliceTo, hnn, if_false, htn, hh,
        List.take_succ_cons]
      rfl

theorem histInv_undo {img : Image} {s : EditorState} (h : HistInv img s) :
    HistInv img (handleUndo s) := by
  obtain ⟨h0, h1, h2⟩ := h
  unfold handleUndo
  by_cases hc : canUndo s = true
  · have hgt : 0 < s.historyIndex := of_decide_eq_true hc
    rw [if_pos hc]
    refine ⟨?_, ?_, h2⟩
    · show (0 : Int) ≤ s.historyIndex - 1
      omega
    · show s.historyIndex - 1 ≤ (s.history.length : Int) - 1
      omega
  · rw [if_neg hc]
    exact ⟨h0, h1, h2⟩

theorem histInv_redo {img : Image} {s : EditorState} (h : HistInv img s) :
    HistInv img (handleRedo s) := by
  obtain ⟨h0, h1, h2⟩ := h
  unfold handleRedo
  by_cases hc : canRedo s = true
  · have hlt : s.historyIndex < (s.history.length : Int) - 1 := of_decide_eq_true hc
    rw [if_pos hc]
    refine ⟨?_, ?_, h2⟩
    · show (0 : Int) ≤ s.historyIndex + 1
      omega
    · show s.historyIndex + 1 ≤ (s.history.length : Int) - 1
      omega
  · rw [if_neg hc]
    exact ⟨h0, h1, h2⟩

theorem histInv_op {img : Image} {s : EditorState} (h : HistInv img s)
    (op : HistOp) : HistInv img (applyHistOp s op) := by
  cases op with
  | commit img' => exact histInv_commit h img'
  | undo => exact histInv_undo h
  | redo => exact histInv_redo h

theorem histInv_ops {img : Image} {s : EditorState} (h : HistInv img s)
    (ops : List HistOp) : HistInv img (applyHistOps s ops) := by
  induction ops generalizing s with
  | nil => exact h
  | cons op rest ih => exact ih (histInv_op h op)

/-- Claim C1: starting from `loadFileIntoEditor` of one image, every
interleaving of `addImageToHistory` commits with `handleUndo`/`handleRedo`
keeps `historyIndex` inside `[0, history.length - 1]`, and the element at
index 0 of the history is still the loaded image. -/
theorem claim1_history_cursor_invariant (start : EditorState) (img : Image)
    (ops : List HistOp) :
    0 ≤ (applyHistOps (loadFileIntoEditor start img) ops).historyIndex ∧
    (applyHistOps (loadFileIntoEditor start img) ops).historyIndex ≤
      ((applyHistOps (loadFileIntoEditor start img) ops).history.length : Int) - 1 ∧
    (applyHistOps (loadFileIntoEditor start img) ops).history.head? = some img :=
  histInv_ops (histInv_load start img) ops

/-- Claim C2 (confirmed): with the cursor `c` inside `[0, length-1]`,
`addImageToHistory` produces the first `c+1` old elements followed by the new
image, puts the cursor at the new last index `c+1`, and leaves no redo branch
(`canRedo` is false), so every entry that was beyond the cursor is discarded. -/
theorem claim2_commit_truncates_and_appends (s : EditorState) (img : Image)
    (h0 : 0 ≤ s.historyIndex)
    (h1 : s.historyIndex ≤ (s.history.length : Int) - 1) :
    (addImageToHistory s img).history =
      s.history.take (s.historyIndex.toNat + 1) ++ [img] ∧
    (addImageToHistory s img).historyIndex = s.historyIndex + 1 ∧
    (addImageToHistory s img).history.length = s.historyIndex.toNat + 2 ∧
    canRedo (addImageToHistory s img) = false := by
  have hnn : ¬ s.historyIndex + 1 < 0 := by omega
  have htn : (s.historyIndex + 1).toNat = s.historyIndex.toNat + 1 := by omega
  have hle : s.historyIndex.toNat + 1 ≤ s.history.length := by omega
  have hhist : (addImageToHistory s img).history =
      s.history.take (s.historyIndex.toNat + 1) ++ [img] := by
    simp [addImageToHistory, jsSliceTo, hnn, htn]
  have hlen : (addImageToHistory s img).history.length = s.historyIndex.toNat + 2 := by
    rw [hhist]
    simp [List.length_take]
    omega
  refine ⟨hhist, ?_, hlen, ?_⟩
  · simp only [addImageToHistory]
    rw [show (jsSliceTo s.history (s.historyIndex + 1) ++ [img]).length =
        (addImageToHistory s img).history.length from rfl, hlen]
    omega
  · simp only [canRedo]
    rw [show (addImageToHistory s img).historyIndex =
        ((addImageToHistory s img).history.length : Int) - 1 from rfl, hlen]
    simp

/-- Witness for C2 at a concrete populated state. -/
theorem claim2_commit_truncates_and_appends_witness :
    (addImageToHistory sampleState "d").history =
      sampleState.history.take (sampleState.historyIndex.toNat + 1) ++ ["d"] ∧
    (addImageToHistory sampleState "d").historyIndex = sampleState.historyIndex + 1 ∧
    (addImageToHistory sampleState "d").history.length = sampleState.historyIndex.toNat + 2 ∧
    canRedo (addImageToHistory sampleState "d") = false :=
  claim2_commit_truncates_and_appends sampleState "d" (by decide) (by decide)

/-- Claim C3 (confirmed): a completion — success or failure — whose target
identifier is not present in the current variations list leaves the list
exactly unchanged: no entry is added, removed or modified (and the update is a
total function, so nothing is thrown). -/
theorem claim3_stale_completion_is_noop (vars : List VariationResult)
    (vid : String) (c : Completion) (h : ∀ v ∈ vars, v.id ≠ vid) :
    applyCompletion vid c vars = vars := by
  unfold applyCompletion
  induction vars with
  | nil => rfl
  | cons v rest ih =>
    have hv : v.id ≠ vid := h v (List.mem_cons_self v rest)
    simp only [List.map_cons, if_neg hv]
    rw [ih fun w hw => h w (List.mem_cons_of_mem v hw)]

/-- Witness for C3: a stale success completion on a one-element list. -/
theorem claim3_stale_completion_is_noop_witness :
    applyCompletion "missing" (.ok "data:image/png;base64,xyz")
        [createVariation "a1" "Fondo" "Set the background to pure clean white, DTC style."] =
      [createVariation "a1" "Fondo" "Set the background to pure clean white, DTC style."] :=
  claim3_stale_completion_is_noop _ _ _ (by decide)

/-- Claim C10 (confirmed): `processVariation` with no ad base image returns
without dispatching a request and without touching the variations list, so a
just-created record (which starts with `loading = true`, `url = none`,
`error = none`) stays in-flight forever — no completion will ever exist for
it. With a base image set, the dispatched request targets the own id of the
variation, and a completion rewrites only the record whose id matches, replacing it
wholesale while preserving its `id`, `label` and `prompt` fields. -/
theorem claim10_processVariation_no_base_and_keyed_update :
    (∀ (v : VariationResult) (vars : List VariationResult),
      processVariation none v vars = (vars, none)) ∧
    (∀ id label prompt,
      (createVariation id label prompt).loading = true ∧
      (createVariation id label prompt).url = none ∧
      (createVariation id label prompt).error = none) ∧
    (∀ (base : Image) (v : VariationResult) (vars : List VariationResult),
      processVariation (some base) v vars = (vars, some ⟨base, v.prompt, v.id⟩)) ∧
    (∀ vid c vars, applyCompletion vid c vars =
      vars.map fun w => if w.id = vid then settleOne c w else w) ∧
    (∀ c w, (settleOne c w).id = w.id ∧ (settleOne c w).label = w.label ∧
      (settleOne c w).prompt = w.prompt) ∧
    (∀ u w, settleOne (.ok u) w = { w with url := some u, loading := false }) ∧
    (∀ m w, settleOne (.err m) w =
      { w with error := some (if m = "" then "Error" else m), loading := false }) := by
  refine ⟨fun v vars => rfl, fun id label prompt => ⟨rfl, rfl, rfl⟩,
    fun base v vars => rfl, fun vid c vars => rfl, fun c w => ?_,
    fun u w => rfl, fun m w => rfl⟩
  cases c <;> exact ⟨rfl, rfl, rfl⟩

/-- An editor state with nothing loaded (fresh app state after
`handleUploadNew`). -/
def emptyEditor : EditorState :=
  { history := [], historyIndex := -1, prompt := "recolor the shirt"
    isLoading := false, error := none, editHotspot := none
    displayHotspot := none, activeTab := "retouch", crop := none, completedCrop := none }

/-- Claim C9 (confirmed): `handleGenerate` dispatches no request and only sets
an error message — leaving history, cursor and hotspots unchanged — whenever
no image is loaded, the instruction trims to empty, or no hotspot is
selected; the request goes out exactly when all three preconditions hold. -/
theorem claim9_handleGenerate_local_validation (s : EditorState) :
    ((currentImage s = none ∨ jsTrim s.prompt = "" ∨ s.editHotspot = none) →
      (handleGenerate s).2 = none ∧
      ((handleGenerate s).1.error).isSome = true ∧
      (handleGenerate s).1.history = s.history ∧
      (handleGenerate s).1.historyIndex = s.historyIndex ∧
      (handleGenerate s).1.editHotspot = s.editHotspot ∧
      (handleGenerate s).1.displayHotspot = s.displayHotspot) ∧
    ((handleGenerate s).2.isSome = true ↔
      (currentImage s ≠ none ∧ jsTrim s.prompt ≠ "" ∧ s.editHotspot ≠ none)) := by
  unfold handleGenerate
  cases hc : currentImage s with
  | none =>
    refine ⟨fun _ => ⟨rfl, rfl, rfl, rfl, rfl, rfl⟩, ?_⟩
    simp
  | some img =>
    dsimp only
    by_cases hp : jsTrim s.prompt = ""
    · rw [if_pos hp]
      refine ⟨fun _ => ⟨rfl, rfl, rfl, rfl, rfl, rfl⟩, ?_⟩
      simp [hp]
    · rw [if_neg hp]
      cases hh : s.editHotspot with
      | none =>
        refine ⟨fun _ => ⟨rfl, rfl, rfl, rfl, rfl, rfl⟩, ?_⟩
        simp [hp]
      | some pt =>
        refine ⟨fun habs => ?_, ?_⟩
        · rcases habs with h' | h' | h' <;> simp_all
        · simp [hp]

/-- Witness for C9: with nothing loaded the action produces only an error and
no request; with image, non-empty prompt and hotspot all present, a request is
dispatched. -/
theorem claim9_handleGenerate_local_validation_witness :
    ((handleGenerate emptyEditor).2 = none ∧
      ((handleGenerate emptyEditor).1.error).isSome = true) ∧
    (handleGenerate sampleState).2.isSome = true := by
  constructor
  · have h := (claim9_handleGenerate_local_validation emptyEditor).1 (Or.inl (by decide))
    exact ⟨h.1, h.2.1⟩
  · exact (claim9_handleGenerate_local_validation sampleState).2.mpr
      ⟨by decide, by decide, by decide⟩

/-- Claim C5 (confirmed): a click at display offset `(dx, dy)` on an image of
natural size `(NW, NH)` displayed at `(CW, CH)` stores the edit hotspot
`(round(dx * NW / CW), round(dy * NH / CH))`; in particular a click at
`(120, 80)` on a `400 × 300`-displayed, `1600 × 1200`-natural image stores
`(480, 320)`. -/
theorem claim5_hotspot_scale_correction :
    (∀ dx dy nw nh cw ch : ℚ,
      handleImageClick "retouch" dx dy nw nh cw ch =
        some (jsRound (dx * nw / cw), jsRound (dy * nh / ch))) ∧
    handleImageClick "retouch" 120 80 1600 1200 400 300 = some (480, 320) := by
  constructor
  · intro dx dy nw nh cw ch
    unfold handleImageClick
    rw [if_neg (by simp)]
    rw [mul_div_assoc, mul_div_assoc]
  · show some (jsRound (120 * (1600 / 400)), jsRound (80 * (1200 / 300))) =
      some ((480 : ℤ), (320 : ℤ))
    have h1 : jsRound (120 * (1600 / 400) : ℚ) = 480 := by
      unfold jsRound
      rw [show (120 * (1600 / 400) + 1 / 2 : ℚ) = 961 / 2 by norm_num]
      exact Int.floor_eq_iff.mpr (by norm_num)
    have h2 : jsRound (80 * (1200 / 300) : ℚ) = 320 := by
      unfold jsRound
      rw [show (80 * (1200 / 300) + 1 / 2 : ℚ) = 641 / 2 by norm_num]
      exact Int.floor_eq_iff.mpr (by norm_num)
    rw [h1, h2]

/-- Claim C6 (confirmed): the aspect-ratio value `generateResizedImage`
dispatches upstream equals the requested target ratio except that `4:5` is
remapped to `3:4`; `1:1` and `9:16` pass through unchanged. -/
theorem claim6_resize_aspect_remap :
    (generateResizedImage "4:5").aspectRatio = "3:4" ∧
    (generateResizedImage "1:1").aspectRatio = "1:1" ∧
    (generateResizedImage "9:16").aspectRatio = "9:16" := by
  refine ⟨rfl, rfl, rfl⟩

/-! ### Order-independence of variation completions (for C4) -/

/-- Whether a completion is a success. -/
def Completion.isOk : Completion → Bool
  | .ok _ => true
  | .err _ => false

/-- The effect of a completion sequence on a single record. -/
def settleFold (v : VariationResult) (l : List (String × Completion)) : VariationResult :=
  l.foldl (fun w p => if w.id = p.1 then settleOne p.2 w else w) v

theorem runCompletions_eq_map (vars : List VariationResult)
    (l : List (String × Completion)) :
    runCompletions vars l = vars.map fun v => settleFold v l := by
  induction l generalizing vars with
  | nil => simp [runCompletions, settleFold]
  | cons p rest ih =>
    show runCompletions (applyCompletion p.1 p.2 vars) rest = _
    rw [ih]
    unfold applyCompletion
    rw [List.map_map]
    rfl

theorem settleOne_id (c : Completion) (v : VariationResult) :
    (settleOne c v).id = v.id := by
  cases c <;> rfl

theorem settleOne_idem (c : Completion) (v : VariationResult) :
    settleOne c (settleOne c v) = settleOne c v := by
  cases c <;> rfl

theorem settleFold_settled (c : Completion) (v : VariationResult)
    (l : List (String × Completion)) (hl : ∀ p ∈ l, p.1 = v.id → p.2 = c) :
    settleFold (settleOne c v) l = settleOne c v := by
  induction l with
  | nil => rfl
  | cons p rest ih =>
    show settleFold
      (if (settleOne c v).id = p.1 then settleOne p.2 (settleOne c v) else settleOne c v)
      rest = settleOne c v
    by_cases hp : (settleOne c v).id = p.1
    · rw [if_pos hp]
      rw [settleOne_id] at hp
      rw [hl p (List.mem_cons_self p rest) hp.symm, settleOne_idem]
      exact ih fun q hq hq1 => hl q (List.mem_cons_of_mem p hq) hq1
    · rw [if_neg hp]
      exact ih fun q hq hq1 => hl q (List.mem_cons_of_mem p hq) hq1

theorem settleFold_eq (c : Completion) (v : VariationResult)
    (l : List (String × Completion)) (hmem : v.id ∈ l.map Prod.fst)
    (hl : ∀ p ∈ l, p.1 = v.id → p.2 = c) :
    settleFold v l = settleOne c v := by
  induction l with
  | nil => simp at hmem
  | cons p rest ih =>
    show settleFold (if v.id = p.1 then settleOne p.2 v else v) rest = settleOne c v
    by_cases hp : v.id = p.1
    · rw [if_pos hp, hl p (List.mem_cons_self p rest) hp.symm]
      exact settleFold_settled c v rest fun q hq hq1 => hl q (List.mem_cons_of_mem p hq) hq1
    · rw [if_neg hp]
      refine ih ?_ fun q hq hq1 => hl q (List.mem_cons_of_mem p hq) hq1
      simp only [List.map_cons, List.mem_cons] at hmem
      rcases hmem with h | h
      · exact absurd h hp
      · exact h

/-- Claim C4, amended (the original fails when no base image is set — see the
counterexample): records are created in-flight; when every dispatched request
receives exactly one completion, the final list is the pointwise settlement of
each record by its own completion — independent of the arrival order — and a
batch of 5 in-flight records of which 3 complete successfully and 2 fail ends
with exactly 3 resolved and 2 failed records. -/
theorem claim4_variation_lifecycle_and_batch (vars : List VariationResult)
    (assign : String → Completion) (l : List (String × Completion))
    (hl : l.Perm (vars.map fun v => (v.id, assign v.id)))
    (hfresh : ∀ v ∈ vars, v.loading = true ∧ v.url = none ∧ v.error = none) :
    (∀ id label prompt, createVariation id label prompt =
      { id := id, label := label, prompt := prompt
        url := none, loading := true, error := none }) ∧
    runCompletions vars l = vars.map (fun v => settleOne (assign v.id) v) ∧
    (runCompletions vars l).countP (fun v => !v.loading && v.url.isSome) =
      vars.countP (fun v => (assign v.id).isOk) ∧
    (runCompletions vars l).countP (fun v => !v.loading && v.error.isSome) =
      vars.countP (fun v => !(assign v.id).isOk) ∧
    (vars.length = 5 → vars.countP (fun v => (assign v.id).isOk) = 3 →
      (runCompletions vars l).countP (fun v => !v.loading && v.url.isSome) = 3 ∧
      (runCompletions vars l).countP (fun v => !v.loading && v.error.isSome) = 2) := by
  have hrun : runCompletions vars l = vars.map fun v => settleOne (assign v.id) v := by
    rw [runCompletions_eq_map]
    refine List.map_congr_left fun v hv => ?_
    refine settleFold_eq (assign v.id) v l ?_ ?_
    · have h1 : (l.map Prod.fst).Perm (vars.map fun v => v.id) := by
        have := hl.map Prod.fst
        rw [List.map_map] at this
        exact this
      refine h1.mem_iff.mpr ?_
      exact List.mem_map.mpr ⟨v, hv, rfl⟩
    · intro p hp hp1
      have hp' : p ∈ vars.map fun v => (v.id, assign v.id) := hl.mem_iff.mp hp
      rcases List.mem_map.mp hp' with ⟨w, _, hw⟩
      rw [← hw] at hp1 ⊢
      simp only at hp1 ⊢
      rw [hp1]
  have hok : (runCompletions vars l).countP (fun v => !v.loading && v.url.isSome) =
      vars.countP fun v => (assign v.id).isOk := by
    rw [hrun, List.countP_map]
    refine List.countP_congr fun v hv => ?_
    obtain ⟨-, hu, he⟩ := hfresh v hv
    cases hc : assign v.id with
    | ok u => simp [Function.comp, settleOne, hc, Completion.isOk]
    | err m => simp [Function.comp, settleOne, hc, Completion.isOk, hu]
  have herr : (runCompletions vars l).countP (fun v => !v.loading && v.error.isSome) =
      vars.countP fun v => !(assign v.id).isOk := by
    rw [hrun, List.countP_map]
    refine List.countP_congr fun v hv => ?_
    obtain ⟨-, hu, he⟩ := hfresh v hv
    cases hc : assign v.id with
    | ok u => simp [Function.comp, settleOne, hc, Completion.isOk, he]
    | err m => simp [Function.comp, settleOne, hc, Completion.isOk]
  refine ⟨fun id label prompt => rfl, hrun, hok, herr, fun hlen hcnt => ?_⟩
  have hsplit : vars.countP (fun v => !(assign v.id).isOk) +
      vars.countP (fun v => (assign v.id).isOk) = vars.length := by
    clear hl hfresh hrun hok herr hlen hcnt
    induction vars with
    | nil => rfl
    | cons x xs ih =>
      rw [List.countP_cons, List.countP_cons, List.length_cons]
      cases h : (assign x.id).isOk <;> simp [h] <;> omega
  refine ⟨?_, ?_⟩
  · rw [hok, hcnt]
  · rw [herr]
    omega

/-- Counterexample to C4 as stated: `handleGenerateCustom` with no ad base
image creates an in-flight variation and `processVariation` returns before
dispatching any request, so that record can never transition to resolved or
failed — it does not transition exactly once. -/
theorem claim4_counterexample_stuck_in_flight :
    (handleGenerateCustom none "Make it pop" "id-1" []).1 =
      [createVariation "id-1" "Personalizado" "Make it pop"] ∧
    (handleGenerateCustom none "Make it pop" "id-1" []).2 = none ∧
    (createVariation "id-1" "Personalizado" "Make it pop").loading = true ∧
    (createVariation "id-1" "Personalizado" "Make it pop").url = none ∧
    (createVariation "id-1" "Personalizado" "Make it pop").error = none :=
  ⟨rfl, rfl, rfl, rfl, rfl⟩

/-- A concrete batch of five in-flight variations. -/
def batch5 : List VariationResult :=
  [ createVariation "v1" "Texto" "p1", createVariation "v2" "Fondo" "p2",
    createVariation "v3" "CTA" "p3", createVariation "v4" "Color" "p4",
    createVariation "v5" "Simple" "p5" ]

/-- A concrete outcome assignment: three successes, two failures. -/
def assign5 : String → Completion := fun id =>
  if id = "v1" then .ok "u1"
  else if id = "v2" then .err "boom"
  else if id = "v3" then .ok "u3"
  else if id = "v4" then .err ""
  else .ok "u5"

/-- A concrete out-of-order arrival sequence for the five completions. -/
def arrivals5 : List (String × Completion) :=
  [ ("v4", .err ""), ("v1", .ok "u1"), ("v5", .ok "u5"),
    ("v2", .err "boom"), ("v3", .ok "u3") ]

/-- Witness for the amended C4 at the concrete batch: 3 resolved, 2 failed. -/
theorem claim4_variation_lifecycle_and_batch_witness :
    (runCompletions batch5 arrivals5).countP (fun v => !v.loading && v.url.isSome) = 3 ∧
    (runCompletions batch5 arrivals5).countP (fun v => !v.loading && v.error.isSome) = 2 :=
  (claim4_variation_lifecycle_and_batch batch5 assign5 arrivals5
    (by decide) (by decide)).2.2.2.2 (by decide) (by decide)

/-- Counterexample to C7 as stated: the category selection of
`handleGenerateMix` cannot be uniform. Its only randomness is `Math.random`
inside the sort comparator `0.5 - Math.random()` and inside the instruction
pick, so one run consumes finitely many uniformly-random bits (each
`Math.random` double is 53 fair bits and only the sign of the comparator is
used).
Any selection computed from `N` fair bits gives every category a probability
of the form `m / 2^N`, and a uniform choice among the `9` categories of
`AD_STRATEGIES` would need probability `1/9` — impossible because `9` never
divides a power of two. Formally: no function from bit vectors to category
indices has all fibers of size `2^N / 9`. -/
theorem claim7_counterexample_no_uniform_choice :
    ¬ ∃ (N : Nat) (f : (Fin N → Bool) → Fin AD_STRATEGIES.length),
      ∀ i : Fin AD_STRATEGIES.length,
        (Finset.univ.filter fun b => f b = i).card * AD_STRATEGIES.length = 2 ^ N := by
  rintro ⟨N, f, hf⟩
  have hi := hf ⟨0, by decide⟩
  have hdvd9 : AD_STRATEGIES.length ∣ 2 ^ N := Dvd.intro_left _ hi
  have hdvd : (3 : Nat) ∣ 2 ^ N := dvd_trans (by decide) hdvd9
  have h32 : (3 : Nat) ∣ 2 := (Nat.prime_three).dvd_of_dvd_pow hdvd
  omega

/-- The instruction lists of all nine strategies are nonempty. -/
theorem adStrategies_lookup_nonempty :
    ∀ cat ∈ AD_STRATEGIES.map Prod.fst,
      0 < ((AD_STRATEGIES.lookup cat).getD []).length := by
  decide

/-- Claim C7, amended (the original claims a uniform category choice, which
the random-comparator shuffle cannot deliver — see the counterexample):
`handleGenerateMix` takes the first 5 categories of the shuffled key list —
some permutation of the 9 fixed categories, so the 5 taken are distinct —
builds for each an in-flight variation whose instruction is the entry at
index `⌊r·len⌋` of the fixed list of that category (for a uniform draw
`r ∈ [0,1)` this index is uniform: its fibers partition `[0,1)` into `len`
equal-length intervals), and prepends the 5 new variations to all previously
existing entries. -/
theorem claim7_mix_shuffle_take5_prepend (base : Image) (perm : List String)
    (hperm : perm.Perm (AD_STRATEGIES.map Prod.fst))
    (rand : Nat → ℚ) (hrand : ∀ k, 0 ≤ rand k ∧ rand k < 1)
    (ids : Nat → String) (prev : List VariationResult) :
    handleGenerateMix (some base) perm rand ids prev =
      ((perm.take 5).mapIdx fun k cat => mkMixVariation rand ids k cat) ++ prev ∧
    (perm.take 5).length = 5 ∧
    (perm.take 5).Nodup ∧
    (∀ k cat, cat ∈ perm →
      (mkMixVariation rand ids k cat).id = ids k ∧
      (mkMixVariation rand ids k cat).label = cat ∧
      (mkMixVariation rand ids k cat).loading = true ∧
      (mkMixVariation rand ids k cat).url = none ∧
      (mkMixVariation rand ids k cat).error = none ∧
      (mkMixVariation rand ids k cat).prompt ∈ (AD_STRATEGIES.lookup cat).getD []) ∧
    (∀ (n i : Nat), 0 < n → ∀ r : ℚ, 0 ≤ r → r < 1 →
      ((⌊r * n⌋.toNat = i) ↔ ((i : ℚ) / n ≤ r ∧ r < ((i : ℚ) + 1) / n))) := by
  have hlen : perm.length = 9 := by
    rw [hperm.length_eq]
    rfl
  refine ⟨rfl, ?_, ?_, ?_, ?_⟩
  · rw [List.length_take, hlen]
    omega
  · exact (List.take_sublist 5 perm).nodup
      (hperm.nodup_iff.mpr (by decide))
  · intro k cat hcat
    have hkey : cat ∈ AD_STRATEGIES.map Prod.fst := hperm.mem_iff.mp hcat
    have hne : 0 < ((AD_STRATEGIES.lookup cat).getD []).length :=
      adStrategies_lookup_nonempty cat hkey
    refine ⟨rfl, rfl, rfl, rfl, rfl, ?_⟩
    show ((AD_STRATEGIES.lookup cat).getD []).getD
        (⌊rand k * (((AD_STRATEGIES.lookup cat).getD []).length : ℚ)⌋).toNat "" ∈ _
    set prompts := (AD_STRATEGIES.lookup cat).getD [] with hp
    obtain ⟨hr0, hr1⟩ := hrand k
    have hflnn : 0 ≤ ⌊rand k * (prompts.length : ℚ)⌋ :=
      Int.floor_nonneg.mpr (by positivity)
    have hfllt : ⌊rand k * (prompts.length : ℚ)⌋ < (prompts.length : ℤ) := by
      rw [Int.floor_lt]
      push_cast
      calc rand k * (prompts.length : ℚ) < 1 * (prompts.length : ℚ) := by
            apply mul_lt_mul_of_pos_right hr1
            exact_mod_cast hne
        _ = (prompts.length : ℚ) := one_mul _
    have hidx : (⌊rand k * (prompts.length : ℚ)⌋).toNat < prompts.length := by
      omega
    rw [List.getD_eq_get prompts "" hidx]
    exact List.get_mem prompts _ hidx
  · intro n i hn r hr0 hr1
    have hnq : (0 : ℚ) < (n : ℚ) := by exact_mod_cast hn
    have hflnn : 0 ≤ ⌊r * (n : ℚ)⌋ := Int.floor_nonneg.mpr (by positivity)
    constructor
    · intro h
      have hz : ⌊r * (n : ℚ)⌋ = (i : ℤ) := by omega
      have := Int.floor_eq_iff.mp hz
      push_cast at this
      obtain ⟨ha, hb⟩ := this
      constructor
      · rw [div_le_iff₀ hnq]
        exact ha
      · rw [lt_div_iff₀ hnq]
        exact hb
    · rintro ⟨ha, hb⟩
      rw [div_le_iff₀ hnq] at ha
      rw [lt_div_iff₀ hnq] at hb
      have hz : ⌊r * (n : ℚ)⌋ = (i : ℤ) := by
        rw [Int.floor_eq_iff]
        push_cast
        exact ⟨ha, hb⟩
      omega

/-- Witness for the amended C7: the identity shuffle, half-point draws and
numbered ids on an empty previous list. -/
theorem claim7_mix_shuffle_take5_prepend_witness :
    handleGenerateMix (some "img") (AD_STRATEGIES.map Prod.fst)
        (fun _ => 1 / 2) (fun k => toString k) [] =
      (((AD_STRATEGIES.map Prod.fst).take 5).mapIdx fun k cat =>
        mkMixVariation (fun _ => 1 / 2) (fun k => toString k) k cat) ++ [] :=
  (claim7_mix_shuffle_take5_prepend "img" (AD_STRATEGIES.map Prod.fst)
    (List.Perm.refl _) (fun _ => 1 / 2) (fun _ => by norm_num)
    (fun k => toString k) []).1

/-- Counterexample to C8 as stated: "any parse failure degrades to the raw
text" fails for a malformed body served with a JSON content type — there
`await response.json()` throws, the surrounding catch runs, and the displayed
text is the generic connection-error message, not the raw body. -/
theorem claim8_counterexample_json_parse_throw :
    computeBotResponse true 200 true "\x7bbad" =
      .str "Lo siento, hubo un problema al conectar con el servidor." ∧
    computeBotResponse true 200 true "\x7bbad" ≠ .str "\x7bbad" := by
  refine ⟨rfl, ?_⟩
  intro h
  rw [show computeBotResponse true 200 true "\x7bbad" =
      Json.str "Lo siento, hubo un problema al conectar con el servidor." from rfl] at h
  injection h with h'
  exact absurd h' (by decide)

/-- Claim C8, amended (the blanket clause "any parse failure degrades to
the raw text" fails when a malformed body arrives under a JSON content type —
see the counterexample): a JSON array body yields the message-like field of
the first element (`[{"output":"hello"}]` displays `hello`); a non-JSON body
passes through as raw text; a JSON-encoded string body is parsed a second
time (`"{\"output\":\"nested\"}"` displays `nested`); and a non-JSON-typed
body that fails the second-pass parse is kept as raw text. -/
theorem claim8_chat_response_parsing :
    computeBotResponse true 200 true "[\x7b\"output\":\"hello\"\x7d]" = .str "hello" ∧
    computeBotResponse true 200 false "plain text" = .str "plain text" ∧
    computeBotResponse true 200 true "\"\x7b\\\"output\\\":\\\"nested\\\"\x7d\"" = .str "nested" ∧
    (∀ s : String, parseJson s = none →
      computeBotResponse true 200 false s = .str s) := by
  refine ⟨rfl, rfl, rfl, ?_⟩
  intro s hs
  show cleanupBotText (.str s) = .str s
  unfold cleanupBotText
  dsimp only
  by_cases hb : startsBracket s = true
  · rw [if_pos hb, hs]
  · rw [if_neg hb]

/-- Witness for the amended C8: a body that is not JSON at all passes through
verbatim. -/
theorem claim8_chat_response_parsing_witness :
    parseJson "not json at all" = none ∧
    computeBotResponse true 200 false "not json at all" = .str "not json at all" :=
  ⟨rfl, claim8_chat_response_parsing.2.2.2 "not json at all" rfl⟩

end CalmEditor
